import Mathlib

set_option maxRecDepth 8000

/-!
Shallow embedding of the `next-env-safe` environment builder
(`createEnv` in `src/index.ts`, error classes in `src/errors.ts`,
types in `src/types.ts`).

Modelling choices:
* JavaScript objects are association lists in insertion order; property
  assignment `o[k] = v` is `setKey` (overwrite in place, append when new)
  and object spread `{...a, ...b}` is `assignAll` (right-biased merge),
  matching JS semantics.
* The zod validation library is modelled abstractly, as the spec notion of a
  "structural/type validation library": a field rule takes the runtime
  string (or `none` when absent) and returns a validated value or an
  issue message; `z.object(shape).safeParse(env)` validates every
  declared key, collects all issues in declaration order, and strips
  undeclared keys (`safeParse` below).
* The execution context probe `typeof window === "undefined"` is an
  explicit `isServer : Bool` argument of `createEnv`.
* `Object.freeze` is recorded as a frozen flag on each object; the
  `Proxy` get trap is `readProp`; property assignment on the client
  sub-object / through the proxy is `writeClientProp` / `writeTargetProp`,
  returning `none` when the touched object is frozen (assignment refused).
-/

/-- A primitive validated value (environment values are scalars). -/
inductive JSValue where
  | undef
  | str (s : String)
  | num (n : Int)
  | boolean (b : Bool)
  deriving DecidableEq

/-- A property of the result object: either a validated value or the
nested `client` sub-object (held by reference, as in JS). -/
inductive PropValue where
  | prim (v : JSValue)
  | clientRef (fields : List (String × JSValue))
  deriving DecidableEq

/-- A zod field rule (`z.ZodTypeAny`): validates the runtime value of one
key (`none` when the key is absent or explicitly undefined). -/
abbrev Rule := Option String → Except String JSValue

/-- Type `SchemaMap` from `src/types.ts`: `Record<string, z.ZodTypeAny>`. -/
abbrev SchemaMap := List (String × Rule)

/-- Type of `runtimeEnv`: `Record<string, string | undefined>`. -/
abbrev RuntimeEnv := List (String × Option String)

/-- Structure `CreateEnvConfig` from `src/types.ts`.  `clientPfx` is the optional
`clientPrefix` field of the source (defaulted to `DEFAULT_PREFIX` by the
destructuring in `createEnv`). -/
structure CreateEnvConfig where
  server : SchemaMap
  client : SchemaMap
  runtimeEnv : RuntimeEnv
  clientPfx : Option String := none
  verbose : Bool := false

/-- The two error classes of `src/errors.ts`: `EnvConfigError`
(`configError`) and `EnvValidationError` (`validationError`). -/
inductive EnvError where
  | configError (msg : String)
  | validationError (msg : String)
  deriving DecidableEq

/-- One zod issue: the field path and its failure message. -/
structure Issue where
  path : List String
  message : String
  deriving DecidableEq

/-- Constant `DEFAULT_PREFIX = "NEXT_PUBLIC_"` from `src/index.ts`. -/
def DEFAULT_PFX : String := "NEXT_PUBLIC_"

/-- Function `prefixOk` from `src/index.ts`: `key.startsWith(prefix)`, i.e. the
characters of the prefix form an initial segment of those of the key. -/
def prefixOk (key pre : String) : Bool :=
  pre.data.isPrefixOf key.data

/-- Reading `runtimeEnv[key]`: a missing key and an explicitly undefined
value both read as `none`. -/
def envLookup (env : RuntimeEnv) (k : String) : Option String :=
  match env.find? (fun p => p.1 == k) with
  | some p => p.2
  | none => none

/-- The issues `z.object(schema).safeParse(env)` reports: every declared
key whose rule rejects its runtime value, in declaration order, with the
one-element field path. -/
def failingIssues (schema : SchemaMap) (env : RuntimeEnv) : List Issue :=
  match schema with
  | [] => []
  | p :: t =>
    match p.2 (envLookup env p.1) with
    | .error m => { path := [p.1], message := m } :: failingIssues t env
    | .ok _ => failingIssues t env

/-- The data `z.object(schema).safeParse(env)` produces: each declared
key bound to its validated value; keys present in `env` but undeclared
are stripped, not errors. -/
def parsedData (schema : SchemaMap) (env : RuntimeEnv) : List (String × JSValue) :=
  match schema with
  | [] => []
  | p :: t =>
    match p.2 (envLookup env p.1) with
    | .error _ => parsedData t env
    | .ok v => (p.1, v) :: parsedData t env

/-- Models `makeObjectSchema(schema).safeParse(env)`: the non-throwing zod parse.
Success with the validated data iff no declared key fails, otherwise the
full issue list. -/
def safeParse (schema : SchemaMap) (env : RuntimeEnv) :
    Except (List Issue) (List (String × JSValue)) :=
  match failingIssues schema env with
  | [] => .ok (parsedData schema env)
  | i :: rest => .error (i :: rest)

/-- Renders `issues.map(i => i.path.join(".") + ": " + i.message).join("\n")`. -/
def renderIssues (issues : List Issue) : String :=
  String.intercalate "\n"
    (issues.map fun i => String.intercalate "." i.path ++ ": " ++ i.message)

/-- JavaScript property write `o[k] = v` on a plain object: overwrites in
place when the key exists (keeping its position), appends otherwise. -/
def setKey {α : Type} : List (String × α) → String → α → List (String × α)
  | [], k, v => [(k, v)]
  | p :: t, k, v => if p.1 = k then (k, v) :: t else p :: setKey t k v

/-- Object spread `{...o, ...src}`: assign the entries of `src` onto `o`
left to right. -/
def assignAll {α : Type} (o src : List (String × α)) : List (String × α) :=
  src.foldl (fun acc p => setKey acc p.1 p.2) o

/-- Property lookup on a plain object. -/
def lookupKey {α : Type} (o : List (String × α)) (k : String) : Option α :=
  match o.find? (fun p => p.1 == k) with
  | some p => some p.2
  | none => none

/-- The state `createEnv` closes over on success: the entries of the
merged `target` without its `client` field (`base`), the client data
object that `target.client` aliases (`clientData`), the declared server
keys the Proxy guard tests with `prop in server`, the captured execution
context, and the freeze state of the two objects (the source freezes the
merged target but never freezes `clientData`). -/
structure EnvResult where
  base : List (String × JSValue)
  clientData : List (String × JSValue)
  serverKeys : List String
  isServer : Bool
  targetFrozen : Bool
  clientFrozen : Bool
  deriving DecidableEq

/-- The entries of the proxied `target` object:
`{ ...(isServer ? serverData : {}), ...clientData, client: clientData }`,
with the `client` field dereferencing the current `clientData`. -/
def EnvResult.target (r : EnvResult) : List (String × PropValue) :=
  setKey (r.base.map fun p => (p.1, PropValue.prim p.2)) "client"
    (.clientRef r.clientData)

/-- The effective client prefix: the destructuring default of the source,
`clientPrefix = DEFAULT_PREFIX`. -/
def effPfx (cfg : CreateEnvConfig) : String :=
  cfg.clientPfx.getD DEFAULT_PFX

/-- Function `createEnv` from `src/index.ts` with the execution context made
explicit.  Thrown errors are `Except.error`.  The `verbose` branch only
emits a non-fatal `console.warn` and never changes the outcome, so it
has no semantic content here. -/
def createEnv (cfg : CreateEnvConfig) (isServer : Bool) :
    Except EnvError EnvResult :=
  match cfg.server.find? (fun p => prefixOk p.1 (effPfx cfg)) with
  | some p =>
      .error (.configError ("Server key \"" ++ p.1 ++
        "\" must NOT start with client prefix \"" ++ effPfx cfg ++ "\"."))
  | none =>
  match cfg.client.find? (fun p => !prefixOk p.1 (effPfx cfg)) with
  | some p =>
      .error (.configError ("Client key \"" ++ p.1 ++
        "\" must start with client prefix \"" ++ effPfx cfg ++ "\"."))
  | none =>
  match (if isServer then safeParse cfg.server cfg.runtimeEnv
         else .ok []) with
  | .error issues =>
      .error (.validationError ("Invalid SERVER env:\n" ++
        renderIssues issues ++
        "\n\nHint: Ensure required server variables exist in your runtime."))
  | .ok serverData =>
  match safeParse cfg.client cfg.runtimeEnv with
  | .error issues =>
      .error (.validationError ("Invalid CLIENT env:\n" ++
        renderIssues issues ++
        "\n\nHint: All client variables must be prefixed with \x27" ++
        effPfx cfg ++ "\x27."))
  | .ok clientData =>
      .ok { base := assignAll (assignAll [] (if isServer then serverData else []))
              clientData
            clientData := clientData
            serverKeys := cfg.server.map Prod.fst
            isServer := isServer
            targetFrozen := true
            clientFrozen := false }

/-- The property names of `Object.prototype`, which every plain object
literal (such as the caller-supplied `server` schema object) inherits:
the JS `in` operator reports them as present. -/
def objectProtoKeys : List String :=
  ["constructor", "hasOwnProperty", "isPrototypeOf", "propertyIsEnumerable",
   "toLocaleString", "toString", "valueOf", "__proto__",
   "__defineGetter__", "__defineSetter__", "__lookupGetter__",
   "__lookupSetter__"]

/-- The JS `in` operator on a plain object literal with the given own
keys: true for an own key and for every property inherited from
`Object.prototype`. -/
def inOp (own : List String) (prop : String) : Bool :=
  own.contains prop || objectProtoKeys.contains prop

/-- The Proxy `get` trap: in a browser context a key satisfying
`prop in server` throws `EnvConfigError` naming the key, whether or not
the property exists on the target — and, because `in` walks the
prototype chain of the schema object, this includes every property name
inherited from `Object.prototype`, not only the declared server keys;
everything else falls through to `Reflect.get` on the target. -/
def readProp (r : EnvResult) (prop : String) : Except EnvError PropValue :=
  if !r.isServer && inOp r.serverKeys prop then
    .error (.configError ("Attempted to access server env key \"" ++ prop ++
      "\" from the client. Use env.client instead."))
  else
    .ok ((lookupKey r.target prop).getD (.prim .undef))

/-- Models `Reflect.get(target, prop)`: the underlying value, `undefined` for an
absent property. -/
def rawGet (r : EnvResult) (prop : String) : PropValue :=
  (lookupKey r.target prop).getD (.prim .undef)

/-- Property assignment on the nested client object
(`env.client[k] = v`): refused iff that object was frozen. -/
def writeClientProp (r : EnvResult) (k : String) (v : JSValue) :
    Option EnvResult :=
  if r.clientFrozen then none
  else some { r with clientData := setKey r.clientData k v }

/-- Top-level property assignment through the proxy (which installs no
`set` trap, so it reaches the target object): refused iff the target was
frozen. -/
def writeTargetProp (r : EnvResult) (k : String) (v : JSValue) :
    Option EnvResult :=
  if r.targetFrozen then none
  else some { r with base := setKey r.base k v }

/-- Models `z.string()`: accepts any present string, rejects a missing value
with the zod `Required` message. -/
def strRule : Rule := fun v =>
  match v with
  | some s => .ok (.str s)
  | none => .error "Required"

/-- A rule that rejects every runtime value (a schema this runtime
environment can never satisfy). -/
def failRule : Rule := fun _ => .error "Invalid"

/-- A well-formed sample configuration: one server key, one client key,
both present in the runtime environment. -/
def cfg1 : CreateEnvConfig :=
  { server := [("DATABASE_URL", strRule)]
    client := [("NEXT_PUBLIC_API_URL", strRule)]
    runtimeEnv := [("DATABASE_URL", some "postgres://db"),
                   ("NEXT_PUBLIC_API_URL", some "https://api")] }

/-- The result of building `cfg1` in a browser context. -/
def r1 : EnvResult :=
  { base := [("NEXT_PUBLIC_API_URL", .str "https://api")]
    clientData := [("NEXT_PUBLIC_API_URL", .str "https://api")]
    serverKeys := ["DATABASE_URL"]
    isServer := false
    targetFrozen := true
    clientFrozen := false }

/-- The result of building `cfg1` in a server context. -/
def r1s : EnvResult :=
  { base := [("DATABASE_URL", .str "postgres://db"),
             ("NEXT_PUBLIC_API_URL", .str "https://api")]
    clientData := [("NEXT_PUBLIC_API_URL", .str "https://api")]
    serverKeys := ["DATABASE_URL"]
    isServer := true
    targetFrozen := true
    clientFrozen := false }

/-- A configuration whose only server key wrongly carries the client
prefix, with a deliberately unsatisfiable rule and an irrelevant runtime
environment: the prefix check must fire before any parsing. -/
def cfg2 : CreateEnvConfig :=
  { server := [("NEXT_PUBLIC_FOO", failRule)]
    client := []
    runtimeEnv := [("NEXT_PUBLIC_FOO", some "x")] }

/-- A configuration whose server schema would reject the runtime
environment (`DATABASE_URL` is missing), used to show the server group
is skipped in a browser context. -/
def cfg3 : CreateEnvConfig :=
  { server := [("DATABASE_URL", strRule)]
    client := [("NEXT_PUBLIC_API_URL", strRule)]
    runtimeEnv := [("NEXT_PUBLIC_API_URL", some "https://api")] }

/-- The result of building `cfg3` in a browser context. -/
def r3 : EnvResult :=
  { base := [("NEXT_PUBLIC_API_URL", .str "https://api")]
    clientData := [("NEXT_PUBLIC_API_URL", .str "https://api")]
    serverKeys := ["DATABASE_URL"]
    isServer := false
    targetFrozen := true
    clientFrozen := false }

/-- A well-formed configuration with one client key, for the mutability
analysis of the nested client sub-object. -/
def cfg4 : CreateEnvConfig :=
  { server := []
    client := [("NEXT_PUBLIC_API_URL", strRule)]
    runtimeEnv := [("NEXT_PUBLIC_API_URL", some "https://api")] }

/-- The result of building `cfg4` in a server context. -/
def r4 : EnvResult :=
  { base := [("NEXT_PUBLIC_API_URL", .str "https://api")]
    clientData := [("NEXT_PUBLIC_API_URL", .str "https://api")]
    serverKeys := []
    isServer := true
    targetFrozen := true
    clientFrozen := false }

/-- Result `r4` after the assignment `env.client.NEXT_PUBLIC_API_URL = "hacked"`:
the unfrozen client data object is updated in place. -/
def r4x : EnvResult :=
  { r4 with clientData := [("NEXT_PUBLIC_API_URL", .str "hacked")] }

/-- A configuration whose runtime environment is missing the required
server key `DATABASE_URL`. -/
def cfg6 : CreateEnvConfig :=
  { server := [("DATABASE_URL", strRule)]
    client := []
    runtimeEnv := [] }

/-- A configuration that declares a server key literally named `client`:
prefix-valid (it does not start with `NEXT_PUBLIC_`) and present in the
runtime environment. -/
def cfg7 : CreateEnvConfig :=
  { server := [("client", strRule)]
    client := []
    runtimeEnv := [("client", some "x")] }

/-- The result of building `cfg7` in a server context. -/
def r7 : EnvResult :=
  { base := [("client", .str "x")]
    clientData := []
    serverKeys := ["client"]
    isServer := true
    targetFrozen := true
    clientFrozen := false }

/-- A well-formed configuration whose runtime environment also carries a
key declared in neither group. -/
def cfg7w : CreateEnvConfig :=
  { server := [("DATABASE_URL", strRule)]
    client := [("NEXT_PUBLIC_API_URL", strRule)]
    runtimeEnv := [("DATABASE_URL", some "postgres://db"),
                   ("NEXT_PUBLIC_API_URL", some "https://api"),
                   ("EXTRA_KEY", some "ignored")] }

/-- A configuration with the empty client prefix and a non-empty server
group. -/
def cfg9 : CreateEnvConfig :=
  { server := [("DATABASE_URL", strRule)]
    client := [("ANY_NAME", strRule)]
    runtimeEnv := []
    clientPfx := some "" }

/-- A configuration declaring the same key in both groups. -/
def cfg10 : CreateEnvConfig :=
  { server := [("SHARED_KEY", strRule)]
    client := [("SHARED_KEY", strRule)]
    runtimeEnv := [("SHARED_KEY", some "x")] }

theorem sanity_cfg1_browser : createEnv cfg1 false = .ok r1 := rfl

theorem sanity_cfg1_server : createEnv cfg1 true = .ok r1s := rfl

theorem sanity_prefixOk : prefixOk "NEXT_PUBLIC_FOO" DEFAULT_PFX = true := by decide

theorem lookupKey_cons {α : Type} (p : String × α) (t : List (String × α)) (k : String) :
    lookupKey (p :: t) k = if p.1 = k then some p.2 else lookupKey t k := by
  unfold lookupKey
  by_cases h : p.1 = k
  · rw [List.find?_cons_of_pos _ (by simpa using h)]
    simp [h]
  · rw [List.find?_cons_of_neg _ (by simpa using h)]
    simp [h]

theorem lookupKey_eq_none {α : Type} {o : List (String × α)} {k : String}
    (h : k ∉ o.map Prod.fst) : lookupKey o k = none := by
  induction o with
  | nil => rfl
  | cons p t ih =>
    rw [lookupKey_cons]
    simp only [List.map_cons, List.mem_cons] at h
    push_neg at h
    simp [Ne.symm h.1, ih h.2]

theorem lookupKey_setKey {α : Type} (o : List (String × α)) (k : String) (v : α)
    (q : String) :
    lookupKey (setKey o k v) q = if q = k then some v else lookupKey o q := by
  induction o with
  | nil =>
    rcases eq_or_ne q k with h | h
    · subst h
      simp [setKey, lookupKey_cons]
    · simp [setKey, lookupKey_cons, h, Ne.symm h, lookupKey]
  | cons p t ih =>
    by_cases h1 : p.1 = k
    · rw [show setKey (p :: t) k v = (k, v) :: t from by simp [setKey, h1]]
      rcases eq_or_ne q k with h2 | h2
      · subst h2
        simp [lookupKey_cons]
      · simp [lookupKey_cons, h1, h2, Ne.symm h2]
    · rw [show setKey (p :: t) k v = p :: setKey t k v from by simp [setKey, h1]]
      rcases eq_or_ne q k with h2 | h2
      · subst h2
        simp [lookupKey_cons, h1, ih]
      · simp [lookupKey_cons, ih, h2]

theorem assignAll_cons {α : Type} (o : List (String × α)) (p : String × α)
    (t : List (String × α)) :
    assignAll o (p :: t) = assignAll (setKey o p.1 p.2) t := rfl

theorem lookupKey_assignAll_of_not_mem {α : Type} {src : List (String × α)}
    {k : String} (h : k ∉ src.map Prod.fst) (o : List (String × α)) :
    lookupKey (assignAll o src) k = lookupKey o k := by
  induction src generalizing o with
  | nil => rfl
  | cons p t ih =>
    simp only [List.map_cons, List.mem_cons] at h
    push_neg at h
    rw [assignAll_cons, ih h.2, lookupKey_setKey]
    simp [h.1]

theorem lookupKey_assignAll_of_mem {α : Type} {src : List (String × α)}
    {k : String} {v : α} (hnd : (src.map Prod.fst).Nodup) (hm : (k, v) ∈ src)
    (o : List (String × α)) : lookupKey (assignAll o src) k = some v := by
  induction src generalizing o with
  | nil => cases hm
  | cons p t ih =>
    simp only [List.map_cons, List.nodup_cons] at hnd
    rcases List.mem_cons.mp hm with hm1 | hm2
    · have hk : k ∉ t.map Prod.fst := by
        rw [show k = p.1 from by rw [← hm1]]
        exact hnd.1
      rw [assignAll_cons, lookupKey_assignAll_of_not_mem hk, lookupKey_setKey]
      rw [show p = (k, v) from hm1.symm]
      simp
    · exact ih hnd.2 hm2 _

theorem lookupKey_map_prim (o : List (String × JSValue)) (k : String) :
    lookupKey (o.map fun p => (p.1, PropValue.prim p.2)) k =
      (lookupKey o k).map PropValue.prim := by
  induction o with
  | nil => rfl
  | cons p t ih =>
    by_cases h : p.1 = k <;> simp [lookupKey_cons, h, ih]

theorem safeParse_ok_inv {s : SchemaMap} {e : RuntimeEnv}
    {d : List (String × JSValue)} (h : safeParse s e = .ok d) :
    failingIssues s e = [] ∧ d = parsedData s e := by
  unfold safeParse at h
  split at h
  · rename_i heq
    exact ⟨heq, (Except.ok.inj h).symm⟩
  · exact absurd h (by simp)

theorem safeParse_of_no_issues {s : SchemaMap} {e : RuntimeEnv}
    (h : failingIssues s e = []) : safeParse s e = .ok (parsedData s e) := by
  unfold safeParse
  rw [h]

theorem safeParse_of_issues {s : SchemaMap} {e : RuntimeEnv}
    (h : failingIssues s e ≠ []) : safeParse s e = .error (failingIssues s e) := by
  unfold safeParse
  split
  · rename_i heq
    exact absurd heq h
  · rename_i i rest heq
    rw [heq]

theorem failingIssues_nil_rule_ok {s : SchemaMap} {e : RuntimeEnv}
    (h : failingIssues s e = []) {p : String × Rule} (hp : p ∈ s) :
    ∃ v, p.2 (envLookup e p.1) = .ok v := by
  induction s with
  | nil => cases hp
  | cons q t ih =>
    unfold failingIssues at h
    rcases List.mem_cons.mp hp with hp1 | hp2
    · subst hp1
      cases hv : p.2 (envLookup e p.1) with
      | ok v => exact ⟨v, rfl⟩
      | error m => rw [hv] at h; exact absurd h (by simp)
    · cases hv : q.2 (envLookup e q.1) with
      | ok v => rw [hv] at h; exact ih h hp2
      | error m => rw [hv] at h; exact absurd h (by simp)

theorem mem_failingIssues_of_error {s : SchemaMap} {e : RuntimeEnv}
    {p : String × Rule} {m : String} (hp : p ∈ s)
    (hm : p.2 (envLookup e p.1) = .error m) :
    ({ path := [p.1], message := m } : Issue) ∈ failingIssues s e := by
  induction s with
  | nil => cases hp
  | cons q t ih =>
    unfold failingIssues
    rcases List.mem_cons.mp hp with hp1 | hp2
    · subst hp1
      rw [hm]
      exact List.mem_cons_self _ _
    · cases hv : q.2 (envLookup e q.1) with
      | ok v => exact ih hp2
      | error m2 => exact List.mem_cons_of_mem _ (ih hp2)

theorem mem_parsedData_of_ok {s : SchemaMap} {e : RuntimeEnv}
    {p : String × Rule} {v : JSValue} (hp : p ∈ s)
    (hv : p.2 (envLookup e p.1) = .ok v) : (p.1, v) ∈ parsedData s e := by
  induction s with
  | nil => cases hp
  | cons q t ih =>
    unfold parsedData
    rcases List.mem_cons.mp hp with hp1 | hp2
    · subst hp1
      rw [hv]
      exact List.mem_cons_self _ _
    · cases hw : q.2 (envLookup e q.1) with
      | ok w => exact List.mem_cons_of_mem _ (ih hp2)
      | error m => exact ih hp2

theorem parsedData_map_fst {s : SchemaMap} {e : RuntimeEnv}
    (h : failingIssues s e = []) :
    (parsedData s e).map Prod.fst = s.map Prod.fst := by
  induction s with
  | nil => rfl
  | cons q t ih =>
    unfold parsedData
    unfold failingIssues at h
    cases hv : q.2 (envLookup e q.1) with
    | ok v =>
      rw [hv] at h
      simp [ih h]
    | error m => rw [hv] at h; exact absurd h (by simp)

theorem createEnv_ok_inv {cfg : CreateEnvConfig} {ctx : Bool} {r : EnvResult}
    (h : createEnv cfg ctx = .ok r) :
    r.isServer = ctx ∧ r.serverKeys = cfg.server.map Prod.fst ∧
    r.targetFrozen = true ∧ r.clientFrozen = false ∧
    safeParse cfg.client cfg.runtimeEnv = .ok r.clientData ∧
    ∃ sd, (if ctx then safeParse cfg.server cfg.runtimeEnv else Except.ok []) =
        .ok sd ∧
      r.base = assignAll (assignAll [] (if ctx then sd else [])) r.clientData := by
  unfold createEnv at h
  split at h
  · exact absurd h (by simp)
  split at h
  · exact absurd h (by simp)
  split at h
  · exact absurd h (by simp)
  rename_i sd hsd
  split at h
  · exact absurd h (by simp)
  rename_i cd hcd
  have hr := (Except.ok.inj h).symm
  subst hr
  exact ⟨rfl, rfl, rfl, rfl, hcd, sd, hsd, rfl⟩

theorem configError_of_badPfx {cfg : CreateEnvConfig} (ctx : Bool)
    (h : (∃ p ∈ cfg.server, prefixOk p.1 (effPfx cfg) = true) ∨
         (∃ p ∈ cfg.client, prefixOk p.1 (effPfx cfg) = false)) :
    ∃ msg, createEnv cfg ctx = .error (.configError msg) := by
  cases hs : cfg.server.find? (fun p => prefixOk p.1 (effPfx cfg)) with
  | some q => exact ⟨_, by unfold createEnv; rw [hs]⟩
  | none =>
    cases hc : cfg.client.find? (fun p => !prefixOk p.1 (effPfx cfg)) with
    | some q => exact ⟨_, by unfold createEnv; rw [hs, hc]⟩
    | none =>
      exfalso
      rcases h with ⟨p, hp, hpf⟩ | ⟨p, hp, hpf⟩
      · have := List.find?_eq_none.mp hs p hp
        simp [hpf] at this
      · have := List.find?_eq_none.mp hc p hp
        simp [hpf] at this

theorem find?_eq_none_of_all_false {α : Type} {l : List α} {f : α → Bool}
    (h : ∀ a ∈ l, f a = false) : l.find? f = none :=
  List.find?_eq_none.mpr fun a ha => by simp [h a ha]

theorem prefixOk_empty (s : String) : prefixOk s "" = true := by
  simp [prefixOk, List.isPrefixOf]

theorem badPfx_cases {cfg : CreateEnvConfig}
    (h : (∃ p ∈ cfg.server, prefixOk p.1 (effPfx cfg) = true) ∨
         (∃ p ∈ cfg.client, prefixOk p.1 (effPfx cfg) = false)) :
    (∃ q, cfg.server.find? (fun p => prefixOk p.1 (effPfx cfg)) = some q) ∨
    (cfg.server.find? (fun p => prefixOk p.1 (effPfx cfg)) = none ∧
     ∃ q, cfg.client.find? (fun p => !prefixOk p.1 (effPfx cfg)) = some q) := by
  cases hs : cfg.server.find? (fun p => prefixOk p.1 (effPfx cfg)) with
  | some q => exact .inl ⟨q, rfl⟩
  | none =>
    cases hc : cfg.client.find? (fun p => !prefixOk p.1 (effPfx cfg)) with
    | some q => exact .inr ⟨rfl, q, rfl⟩
    | none =>
      exfalso
      rcases h with ⟨p, hp, hpf⟩ | ⟨p, hp, hpf⟩
      · have := List.find?_eq_none.mp hs p hp
        simp [hpf] at this
      · have := List.find?_eq_none.mp hc p hp
        simp [hpf] at this

/-- Claim C1, code-level counterexample: in a browser-context build of
`cfg1`, the declared server key `DATABASE_URL` is guarded as claimed
(even though absent from the object), and an ordinary undeclared key and
the `client` field pass through — but the guard tests `prop in server`,
and the JS `in` operator also reports the `Object.prototype` names the
schema object inherits, so reading `toString` (declared in neither
group) throws a Configuration Error misnaming it a server env key
instead of passing the inherited value through as the claim states. -/
theorem inherited_property_guard_bug :
    createEnv cfg1 false = .ok r1 ∧
    readProp r1 "DATABASE_URL" =
      .error (.configError "Attempted to access server env key \"DATABASE_URL\" from the client. Use env.client instead.") ∧
    readProp r1 "NEXT_PUBLIC_API_URL" = .ok (rawGet r1 "NEXT_PUBLIC_API_URL") ∧
    readProp r1 "client" = .ok (rawGet r1 "client") ∧
    readProp r1 "SOME_OTHER_KEY" = .ok (rawGet r1 "SOME_OTHER_KEY") ∧
    ("toString" ∉ cfg1.server.map Prod.fst ∧
     "toString" ∉ cfg1.client.map Prod.fst) ∧
    readProp r1 "toString" =
      .error (.configError "Attempted to access server env key \"toString\" from the client. Use env.client instead.") ∧
    readProp r1 "toString" ≠ .ok (rawGet r1 "toString") := by
  refine ⟨rfl, rfl, rfl, rfl, rfl, ⟨by decide, by decide⟩, rfl, ?_⟩
  have h1 : readProp r1 "toString" =
      .error (.configError "Attempted to access server env key \"toString\" from the client. Use env.client instead.") := rfl
  rw [h1]
  intro h
  exact absurd h (by simp)

/-- Claim C2: a wrongly prefixed key in either group makes `createEnv`
throw a Configuration Error, in both execution contexts, and the outcome
is independent of the runtime environment (so no value parsing is
consulted). -/
theorem prefix_check_first (cfg : CreateEnvConfig) (ctx : Bool)
    (h : (∃ p ∈ cfg.server, prefixOk p.1 (effPfx cfg) = true) ∨
         (∃ p ∈ cfg.client, prefixOk p.1 (effPfx cfg) = false)) :
    (∃ msg, createEnv cfg ctx = .error (.configError msg)) ∧
    (∀ env2 : RuntimeEnv,
      createEnv { cfg with runtimeEnv := env2 } ctx = createEnv cfg ctx) := by
  refine ⟨configError_of_badPfx ctx h, fun env2 => ?_⟩
  rcases badPfx_cases h with ⟨q, hs⟩ | ⟨hs, q, hc⟩
  · unfold createEnv
    rw [show ({ cfg with runtimeEnv := env2 } : CreateEnvConfig).server = cfg.server
          from rfl,
        show effPfx { cfg with runtimeEnv := env2 } = effPfx cfg from rfl, hs]
  · unfold createEnv
    rw [show ({ cfg with runtimeEnv := env2 } : CreateEnvConfig).server = cfg.server
          from rfl,
        show ({ cfg with runtimeEnv := env2 } : CreateEnvConfig).client = cfg.client
          from rfl,
        show effPfx { cfg with runtimeEnv := env2 } = effPfx cfg from rfl, hs, hc]

/-- Witness for C2 at `cfg2` (server key `NEXT_PUBLIC_FOO` carries the
client prefix): construction fails with a Configuration Error in both
contexts and the failure does not depend on the runtime environment. -/
theorem prefix_check_first_witness :
    ((∃ msg, createEnv cfg2 true = .error (.configError msg)) ∧
     (∀ env2 : RuntimeEnv,
       createEnv { cfg2 with runtimeEnv := env2 } true = createEnv cfg2 true)) ∧
    ((∃ msg, createEnv cfg2 false = .error (.configError msg)) ∧
     (∀ env2 : RuntimeEnv,
       createEnv { cfg2 with runtimeEnv := env2 } false = createEnv cfg2 false)) :=
  ⟨prefix_check_first cfg2 true (.inl ⟨("NEXT_PUBLIC_FOO", failRule),
      List.mem_cons_self _ _, by decide⟩),
   prefix_check_first cfg2 false (.inl ⟨("NEXT_PUBLIC_FOO", failRule),
      List.mem_cons_self _ _, by decide⟩)⟩

/-- Claim C8: `createEnv` is deterministic — two successful builds from
the same configuration in the same context agree on every property read,
on the underlying target entries, and on the client sub-object. -/
theorem createEnv_deterministic (cfg : CreateEnvConfig) (ctx : Bool)
    (r₁ r₂ : EnvResult) (h₁ : createEnv cfg ctx = .ok r₁)
    (h₂ : createEnv cfg ctx = .ok r₂) :
    (∀ p, readProp r₁ p = readProp r₂ p) ∧
    (∀ k, lookupKey r₁.target k = lookupKey r₂.target k) ∧
    r₁.clientData = r₂.clientData := by
  rw [h₁] at h₂
  have he : r₁ = r₂ := Except.ok.inj h₂
  subst he
  exact ⟨fun _ => rfl, fun _ => rfl, rfl⟩

/-- Witness for C8 at `cfg1` in a server context. -/
theorem createEnv_deterministic_witness :
    (∀ p, readProp r1s p = readProp r1s p) ∧
    (∀ k, lookupKey r1s.target k = lookupKey r1s.target k) ∧
    r1s.clientData = r1s.clientData :=
  createEnv_deterministic cfg1 true r1s r1s rfl rfl

/-- Claim C9: with the empty string as client prefix and a non-empty
server group, `createEnv` always throws a Configuration Error — every
server key starts with the empty prefix and so fails the server prefix
check — while every key (in particular every client key) passes the
client prefix check. -/
theorem empty_prefix_rejects_server (cfg : CreateEnvConfig)
    (hp : cfg.clientPfx = some "") (hs : cfg.server ≠ []) (ctx : Bool) :
    (∃ msg, createEnv cfg ctx = .error (.configError msg)) ∧
    (∀ p ∈ cfg.server, prefixOk p.1 (effPfx cfg) = true) ∧
    (∀ p ∈ cfg.client, prefixOk p.1 (effPfx cfg) = true) := by
  have hpfx : effPfx cfg = "" := by rw [effPfx, hp]; rfl
  refine ⟨?_, fun p _ => by rw [hpfx]; exact prefixOk_empty _,
    fun p _ => by rw [hpfx]; exact prefixOk_empty _⟩
  apply configError_of_badPfx
  left
  cases hsrv : cfg.server with
  | nil => exact absurd hsrv hs
  | cons p t =>
    exact ⟨p, List.mem_cons_self _ _, by rw [hpfx]; exact prefixOk_empty _⟩

/-- Witness for C9 at `cfg9` (empty prefix, one server key), in both
contexts. -/
theorem empty_prefix_rejects_server_witness :
    ((∃ msg, createEnv cfg9 true = .error (.configError msg)) ∧
     (∀ p ∈ cfg9.server, prefixOk p.1 (effPfx cfg9) = true) ∧
     (∀ p ∈ cfg9.client, prefixOk p.1 (effPfx cfg9) = true)) ∧
    (∃ msg, createEnv cfg9 false = .error (.configError msg)) :=
  ⟨empty_prefix_rejects_server cfg9 rfl (by simp [cfg9]) true,
   (empty_prefix_rejects_server cfg9 rfl (by simp [cfg9]) false).1⟩

/-- Claim C10: a key declared in both groups makes `createEnv` throw a
Configuration Error in every execution context (the key cannot both
start and not start with the client prefix), so the two groups of any
successful build are disjoint. -/
theorem overlapping_groups_rejected (cfg : CreateEnvConfig) (k : String)
    (ctx : Bool) (hks : k ∈ cfg.server.map Prod.fst)
    (hkc : k ∈ cfg.client.map Prod.fst) :
    ∃ msg, createEnv cfg ctx = .error (.configError msg) := by
  apply configError_of_badPfx
  rcases List.mem_map.mp hks with ⟨p, hp, hpk⟩
  rcases List.mem_map.mp hkc with ⟨q, hq, hqk⟩
  cases hpf : prefixOk k (effPfx cfg) with
  | true => exact .inl ⟨p, hp, by rw [hpk]; exact hpf⟩
  | false => exact .inr ⟨q, hq, by rw [hqk]; exact hpf⟩

/-- Witness for C10 at `cfg10` (`SHARED_KEY` in both groups), in both
contexts. -/
theorem overlapping_groups_rejected_witness :
    (∃ msg, createEnv cfg10 true = .error (.configError msg)) ∧
    (∃ msg, createEnv cfg10 false = .error (.configError msg)) :=
  ⟨overlapping_groups_rejected cfg10 "SHARED_KEY" true (by simp [cfg10])
      (by simp [cfg10]),
   overlapping_groups_rejected cfg10 "SHARED_KEY" false (by simp [cfg10])
      (by simp [cfg10])⟩

/-- Claim C3: in a browser-context build, server-group validation is
skipped (every thrown validation error comes from the client group), and
on success the merged entries contain only client-derived data: every
key outside the client data is absent from the base object. -/
theorem browser_skips_server_validation (cfg : CreateEnvConfig) :
    (∀ r, createEnv cfg false = .ok r →
      r.base = assignAll [] r.clientData ∧
      ∀ k, k ∉ r.clientData.map Prod.fst → lookupKey r.base k = none) ∧
    (∀ e, createEnv cfg false = .error e →
      (∃ m, e = .configError m) ∨
      (∃ issues, safeParse cfg.client cfg.runtimeEnv = .error issues ∧
        e = .validationError ("Invalid CLIENT env:\n" ++ renderIssues issues ++
          "\n\nHint: All client variables must be prefixed with \x27" ++
          effPfx cfg ++ "\x27."))) := by
  constructor
  · intro r hr
    obtain ⟨-, -, -, -, -, sd, hsd, hbase⟩ := createEnv_ok_inv hr
    have hsd0 : Except.ok ([] : List (String × JSValue)) = .ok sd := hsd
    have hsd1 : sd = [] := (Except.ok.inj hsd0).symm
    subst hsd1
    have hbase2 : r.base = assignAll [] r.clientData := hbase
    refine ⟨hbase2, fun k hk => ?_⟩
    rw [hbase2, lookupKey_assignAll_of_not_mem hk]
    rfl
  · intro e he
    unfold createEnv at he
    split at he
    · exact .inl ⟨_, (Except.error.inj he).symm⟩
    split at he
    · exact .inl ⟨_, (Except.error.inj he).symm⟩
    split at he
    · rename_i issues hiss
      exact absurd hiss (by simp)
    split at he
    · rename_i issues hiss
      exact .inr ⟨issues, hiss, (Except.error.inj he).symm⟩
    · exact absurd he (by simp)

/-- Witness for C3 at `cfg3` in a browser context: the server schema
would reject the runtime environment (`DATABASE_URL` missing), yet the
build succeeds, and the server key is absent from the merged entries. -/
theorem browser_skips_server_validation_witness :
    createEnv cfg3 false = .ok r3 ∧
    failingIssues cfg3.server cfg3.runtimeEnv ≠ [] ∧
    r3.base = assignAll [] r3.clientData ∧
    lookupKey r3.base "DATABASE_URL" = none :=
  ⟨rfl, by decide,
   ((browser_skips_server_validation cfg3).1 r3 rfl).1,
   ((browser_skips_server_validation cfg3).1 r3 rfl).2 "DATABASE_URL" (by decide)⟩

/-- Claim C5: the client sub-object of any successful build binds
exactly the declared client keys to their validated values, and its
contents do not depend on the execution context. -/
theorem client_subobject_exact (cfg : CreateEnvConfig) (ctx : Bool)
    (r : EnvResult) (hr : createEnv cfg ctx = .ok r) :
    (r.clientData.map Prod.fst = cfg.client.map Prod.fst ∧
     ∀ p ∈ cfg.client, ∃ v, p.2 (envLookup cfg.runtimeEnv p.1) = .ok v ∧
       (p.1, v) ∈ r.clientData) ∧
    (∀ ctx2 r2, createEnv cfg ctx2 = .ok r2 → r2.clientData = r.clientData) := by
  obtain ⟨-, -, -, -, hcd, -⟩ := createEnv_ok_inv hr
  obtain ⟨hnil, hdata⟩ := safeParse_ok_inv hcd
  refine ⟨⟨by rw [hdata]; exact parsedData_map_fst hnil, ?_⟩, ?_⟩
  · intro p hp
    obtain ⟨v, hv⟩ := failingIssues_nil_rule_ok hnil hp
    exact ⟨v, hv, by rw [hdata]; exact mem_parsedData_of_ok hp hv⟩
  · intro ctx2 r2 hr2
    obtain ⟨-, -, -, -, hcd2, -⟩ := createEnv_ok_inv hr2
    rw [hcd] at hcd2
    exact (Except.ok.inj hcd2).symm

/-- Witness for C5 at `cfg1`: the browser-context and server-context
client sub-objects agree and bind exactly the declared client key. -/
theorem client_subobject_exact_witness :
    (r1.clientData.map Prod.fst = cfg1.client.map Prod.fst ∧
     ∀ p ∈ cfg1.client, ∃ v, p.2 (envLookup cfg1.runtimeEnv p.1) = .ok v ∧
       (p.1, v) ∈ r1.clientData) ∧
    r1s.clientData = r1.clientData :=
  ⟨(client_subobject_exact cfg1 false r1 rfl).1,
   (client_subobject_exact cfg1 false r1 rfl).2 true r1s rfl⟩

/-- Claim C6: when a group fails validation (under well-prefixed
groups), `createEnv` throws a Validation Error whose message is the
deterministic rendering of all failing fields — dotted path and reason,
one per line — followed by the context-specific hint; every failing
field contributes its issue to the rendered list. -/
theorem validation_error_report (cfg : CreateEnvConfig) (ctx : Bool)
    (hpfx : (∀ p ∈ cfg.server, prefixOk p.1 (effPfx cfg) = false) ∧
            (∀ p ∈ cfg.client, prefixOk p.1 (effPfx cfg) = true)) :
    (ctx = true → failingIssues cfg.server cfg.runtimeEnv ≠ [] →
      createEnv cfg ctx = .error (.validationError ("Invalid SERVER env:\n" ++
        renderIssues (failingIssues cfg.server cfg.runtimeEnv) ++
        "\n\nHint: Ensure required server variables exist in your runtime."))) ∧
    ((ctx = false ∨ failingIssues cfg.server cfg.runtimeEnv = []) →
      failingIssues cfg.client cfg.runtimeEnv ≠ [] →
      createEnv cfg ctx = .error (.validationError ("Invalid CLIENT env:\n" ++
        renderIssues (failingIssues cfg.client cfg.runtimeEnv) ++
        "\n\nHint: All client variables must be prefixed with \x27" ++
        effPfx cfg ++ "\x27."))) ∧
    (∀ p ∈ cfg.server, ∀ m, p.2 (envLookup cfg.runtimeEnv p.1) = .error m →
      ({ path := [p.1], message := m } : Issue) ∈
        failingIssues cfg.server cfg.runtimeEnv) ∧
    (∀ p ∈ cfg.client, ∀ m, p.2 (envLookup cfg.runtimeEnv p.1) = .error m →
      ({ path := [p.1], message := m } : Issue) ∈
        failingIssues cfg.client cfg.runtimeEnv) := by
  have hfs : cfg.server.find? (fun p => prefixOk p.1 (effPfx cfg)) = none :=
    find?_eq_none_of_all_false hpfx.1
  have hfc : cfg.client.find? (fun p => !prefixOk p.1 (effPfx cfg)) = none :=
    find?_eq_none_of_all_false (fun p hp => by rw [hpfx.2 p hp]; rfl)
  refine ⟨?_, ?_, fun p hp m hm => mem_failingIssues_of_error hp hm,
    fun p hp m hm => mem_failingIssues_of_error hp hm⟩
  · intro hctx hne
    subst hctx
    unfold createEnv
    rw [hfs, hfc, if_pos rfl, safeParse_of_issues hne]
  · intro hsv hne
    cases ctx with
    | false =>
      unfold createEnv
      rw [hfs, hfc, if_neg (by simp), safeParse_of_issues hne]
    | true =>
      have hnil : failingIssues cfg.server cfg.runtimeEnv = [] := by
        rcases hsv with h | h
        · exact absurd h (by simp)
        · exact h
      unfold createEnv
      rw [hfs, hfc, if_pos rfl, safeParse_of_no_issues hnil,
        safeParse_of_issues hne]

/-- Witness for C6 at `cfg6` in a server context: the missing required
key `DATABASE_URL` is reported as a dotted path with its reason and the
server hint. -/
theorem validation_error_report_witness :
    createEnv cfg6 true = .error (.validationError
      "Invalid SERVER env:\nDATABASE_URL: Required\n\nHint: Ensure required server variables exist in your runtime.") :=
  (validation_error_report cfg6 true ⟨by decide, by decide⟩).1 rfl (by decide)

theorem readProp_server (r : EnvResult) (h : r.isServer = true) (k : String) :
    readProp r k = .ok (rawGet r k) := by
  unfold readProp rawGet
  rw [h]
  rfl

theorem rawGet_ne_client (r : EnvResult) (k : String) (hk : k ≠ "client") :
    rawGet r k = ((lookupKey r.base k).map PropValue.prim).getD (.prim .undef) := by
  unfold rawGet EnvResult.target
  rw [lookupKey_setKey, if_neg hk, lookupKey_map_prim]

/-- Claim C4, code-level counterexample: the merged target is frozen,
but the nested client sub-object is not — the assignment
`env.client.NEXT_PUBLIC_API_URL = "hacked"` is accepted and changes the
value observed through `env.client`, while top-level writes are
refused. -/
theorem client_subobject_mutable :
    createEnv cfg4 true = .ok r4 ∧
    r4.clientFrozen = false ∧
    writeClientProp r4 "NEXT_PUBLIC_API_URL" (.str "hacked") = some r4x ∧
    readProp r4 "client" = .ok (.clientRef [("NEXT_PUBLIC_API_URL", .str "https://api")]) ∧
    readProp r4x "client" = .ok (.clientRef [("NEXT_PUBLIC_API_URL", .str "hacked")]) ∧
    readProp r4x "client" ≠ readProp r4 "client" ∧
    (∀ k v, writeTargetProp r4 k v = none) := by
  refine ⟨rfl, rfl, rfl, rfl, rfl, ?_, fun k v => rfl⟩
  have h1 : readProp r4x "client" =
      .ok (.clientRef [("NEXT_PUBLIC_API_URL", .str "hacked")]) := rfl
  have h2 : readProp r4 "client" =
      .ok (.clientRef [("NEXT_PUBLIC_API_URL", .str "https://api")]) := rfl
  rw [h1, h2]
  intro h
  have h3 := Except.ok.inj h
  simp at h3

/-- Claim C7, counterexample: with a server key literally named
`client`, construction succeeds but the result does not hold the validated
value of that key — the `client` field of the builder shadows it. -/
theorem declared_client_key_shadowed :
    createEnv cfg7 true = .ok r7 ∧
    ("client", strRule) ∈ cfg7.server ∧
    strRule (envLookup cfg7.runtimeEnv "client") = .ok (.str "x") ∧
    readProp r7 "client" = .ok (.clientRef []) ∧
    readProp r7 "client" ≠ .ok (.prim (.str "x")) := by
  refine ⟨rfl, List.mem_cons_self _ _, rfl, rfl, ?_⟩
  have h1 : readProp r7 "client" = .ok (.clientRef []) := rfl
  rw [h1]
  intro h
  have h2 := Except.ok.inj h
  simp at h2

/-- Claim C7 (amended): under correctly prefixed, duplicate-free groups
whose rules all accept the runtime environment, server-context
construction succeeds; the result holds every declared key other than a
key literally named `client` with its validated value, and every
undeclared property (other than `client`) reads as undefined — extra
runtime-environment keys are ignored. -/
theorem success_holds_declared_values (cfg : CreateEnvConfig)
    (hnds : (cfg.server.map Prod.fst).Nodup)
    (hndc : (cfg.client.map Prod.fst).Nodup)
    (hpfxS : ∀ p ∈ cfg.server, prefixOk p.1 (effPfx cfg) = false)
    (hpfxC : ∀ p ∈ cfg.client, prefixOk p.1 (effPfx cfg) = true)
    (hs : failingIssues cfg.server cfg.runtimeEnv = [])
    (hc : failingIssues cfg.client cfg.runtimeEnv = []) :
    ∃ r, createEnv cfg true = .ok r ∧
      (∀ p ∈ cfg.server ++ cfg.client, p.1 ≠ "client" →
        ∃ v, p.2 (envLookup cfg.runtimeEnv p.1) = .ok v ∧
          readProp r p.1 = .ok (.prim v)) ∧
      (∀ k, k ∉ (cfg.server ++ cfg.client).map Prod.fst → k ≠ "client" →
        readProp r k = .ok (.prim .undef)) := by
  have hfs : cfg.server.find? (fun p => prefixOk p.1 (effPfx cfg)) = none :=
    find?_eq_none_of_all_false hpfxS
  have hfc : cfg.client.find? (fun p => !prefixOk p.1 (effPfx cfg)) = none :=
    find?_eq_none_of_all_false (fun p hp => by rw [hpfxC p hp]; rfl)
  have hok : ∃ r, createEnv cfg true = .ok r := by
    apply Exists.intro
    unfold createEnv
    rw [hfs, hfc, if_pos rfl, safeParse_of_no_issues hs, safeParse_of_no_issues hc]
  obtain ⟨r, hr⟩ := hok
  obtain ⟨hctx, -, -, -, hcd, sd, hsd, hbase⟩ := createEnv_ok_inv hr
  have hsd2 : safeParse cfg.server cfg.runtimeEnv = .ok sd := hsd
  obtain ⟨-, hsdd⟩ := safeParse_ok_inv hsd2
  obtain ⟨-, hcdd⟩ := safeParse_ok_inv hcd
  subst hsdd
  have hbase2 : r.base =
      assignAll (assignAll [] (parsedData cfg.server cfg.runtimeEnv)) r.clientData :=
    hbase
  have hnodc : ((parsedData cfg.client cfg.runtimeEnv).map Prod.fst).Nodup := by
    rw [parsedData_map_fst hc]
    exact hndc
  have hnods : ((parsedData cfg.server cfg.runtimeEnv).map Prod.fst).Nodup := by
    rw [parsedData_map_fst hs]
    exact hnds
  refine ⟨r, hr, ?_, ?_⟩
  · intro p hp hne
    rcases List.mem_append.mp hp with hps | hpc
    · obtain ⟨v, hv⟩ := failingIssues_nil_rule_ok hs hps
      refine ⟨v, hv, ?_⟩
      rw [readProp_server r hctx, rawGet_ne_client r _ hne, hbase2, hcdd]
      have hnotc : p.1 ∉ (parsedData cfg.client cfg.runtimeEnv).map Prod.fst := by
        rw [parsedData_map_fst hc]
        intro hmem
        rcases List.mem_map.mp hmem with ⟨q, hq, hqk⟩
        have h1 := hpfxC q hq
        rw [hqk, hpfxS p hps] at h1
        exact absurd h1 (by simp)
      rw [lookupKey_assignAll_of_not_mem hnotc,
        lookupKey_assignAll_of_mem hnods (mem_parsedData_of_ok hps hv)]
      rfl
    · obtain ⟨v, hv⟩ := failingIssues_nil_rule_ok hc hpc
      refine ⟨v, hv, ?_⟩
      rw [readProp_server r hctx, rawGet_ne_client r _ hne, hbase2, hcdd]
      rw [lookupKey_assignAll_of_mem hnodc (mem_parsedData_of_ok hpc hv)]
      rfl
  · intro k hk hne
    rw [readProp_server r hctx, rawGet_ne_client r _ hne, hbase2, hcdd]
    rw [List.map_append] at hk
    have h1 : k ∉ (parsedData cfg.client cfg.runtimeEnv).map Prod.fst := by
      rw [parsedData_map_fst hc]
      exact fun hx => hk (List.mem_append.mpr (.inr hx))
    have h2 : k ∉ (parsedData cfg.server cfg.runtimeEnv).map Prod.fst := by
      rw [parsedData_map_fst hs]
      exact fun hx => hk (List.mem_append.mpr (.inl hx))
    rw [lookupKey_assignAll_of_not_mem h1, lookupKey_assignAll_of_not_mem h2]
    rfl

/-- Witness for the amended C7 at `cfg7w`: both declared keys read back
their validated values in a server context, and the undeclared runtime
key `EXTRA_KEY` is ignored. -/
theorem success_holds_declared_values_witness :
    ∃ r, createEnv cfg7w true = .ok r ∧
      (∀ p ∈ cfg7w.server ++ cfg7w.client, p.1 ≠ "client" →
        ∃ v, p.2 (envLookup cfg7w.runtimeEnv p.1) = .ok v ∧
          readProp r p.1 = .ok (.prim v)) ∧
      (∀ k, k ∉ (cfg7w.server ++ cfg7w.client).map Prod.fst → k ≠ "client" →
        readProp r k = .ok (.prim .undef)) :=
  success_holds_declared_values cfg7w (by decide) (by decide) (by decide)
    (by decide) (by decide) (by decide)
